import Mathlib

/-!
Verification of the recommendation selection engine of GENAI-GREEN-GENIE
(`src/backend/recommender_lib.py`, function `generate_recommendation`).

A pandas `DataFrame` is embedded as an ordered header of column names plus a
list of rows (each row a list of cells, positionally aligned with the header).
Cell values are strings, rationals (standing for Python numbers), or the
missing-value marker (NaN/None).  The positional index of a freshly loaded
frame is the row's ordinal position, which is how the index is modelled.
-/

attribute [local semireducible] Rat.mul Rat.inv

namespace GreenGenie

/-- A cell of a tabular dataset: a string, a number, or a missing value
(pandas NaN / Python None). -/
inductive Cell where
  | str (s : String)
  | num (q : ℚ)
  | null
deriving DecidableEq

/-- Embedding of a pandas `DataFrame`: ordered column names plus rows of
cells.  Row `r`'s value for column `k` is `r[i]` where `i` is the position of
`k` in the header. -/
structure DataFrame where
  header : List String
  rows : List (List Cell)
deriving DecidableEq

/-- `pd.DataFrame()` — the empty frame returned at lines 12 and 41. -/
def emptyDataFrame : DataFrame := ⟨[], []⟩

/-- Python's `str.lower()` on the ASCII strings the selector compares
(risk levels and the `"all"` sentinel), mapping over the character list. -/
def lowerStr (s : String) : String := ⟨s.data.map Char.toLower⟩

/-- Value of row `row` at column position `i`; out-of-range reads give the
missing marker. -/
def getCell (row : List Cell) (i : Nat) : Cell := row.getD i Cell.null

/-- Position of the first column named `name` (pandas label lookup). -/
def DataFrame.colIdx (df : DataFrame) (name : String) : Option Nat :=
  df.header.findIdx? (fun h => h = name)

/-- `name in df.columns`. -/
def DataFrame.hasCol (df : DataFrame) (name : String) : Bool :=
  df.header.contains name

/-- `df.empty`: true when either axis has length zero. -/
def DataFrame.empty (df : DataFrame) : Bool :=
  df.rows.isEmpty || df.header.isEmpty

/-- `df.copy()` (line 14): value semantics make the copy explicit. -/
def DataFrame.copy (df : DataFrame) : DataFrame := df

/-- `pick_col` (lines 5–9): first candidate present among the columns. -/
def pick_col (df : DataFrame) (candidates : List String) : Option String :=
  candidates.find? (fun c => df.hasCol c)

/-- `df.rename(columns={old: nw}, inplace=True)`: every header label equal to
`old` becomes `nw`; rows are untouched. -/
def DataFrame.renameCol (df : DataFrame) (old nw : String) : DataFrame :=
  { df with header := df.header.map (fun h => if h = old then nw else h) }

/-- `df.insert(0, name, vals)`: new first column. -/
def DataFrame.insertCol0 (df : DataFrame) (name : String) (vals : List Cell) :
    DataFrame :=
  { header := name :: df.header,
    rows := List.zipWith (fun v r => v :: r) vals df.rows }

/-- `df[name] = v` for a column `name` not yet present: pandas appends the
new column at the end, broadcasting the scalar. -/
def DataFrame.appendColConst (df : DataFrame) (name : String) (v : Cell) :
    DataFrame :=
  { header := df.header ++ [name],
    rows := df.rows.map (fun r => r ++ [v]) }

/-- `df[name] = f(df[name])` for a present column: rewrite each row's cell at
the column's position. -/
def DataFrame.mapCol (df : DataFrame) (name : String) (f : Cell → Cell) :
    DataFrame :=
  match df.colIdx name with
  | none => df
  | some i => { df with rows := df.rows.map (fun r => r.set i (f (getCell r i))) }

/-- `df.index.astype(str)` on a freshly loaded frame of `n` rows: the
zero-based ordinal positions rendered as strings. -/
def indexStr (n : Nat) : List Cell :=
  (List.range n).map (fun i => Cell.str (toString i))

/-- Numeric value of a run of decimal digit characters. -/
def digitsVal (l : List Char) : ℕ :=
  l.foldl (fun a c => 10 * a + (c.toNat - 48)) 0

/-- Strip leading and trailing whitespace (Python's `str.strip`, which the
numeric parser applies). -/
def trimChars (l : List Char) : List Char :=
  ((l.dropWhile Char.isWhitespace).reverse.dropWhile Char.isWhitespace).reverse

/-- Split a character list at every `'.'` (the semantics of
`str.split(".")`: no dot gives one piece, `"a.b"` gives two, and so on). -/
def splitDot : List Char → List (List Char)
  | [] => [[]]
  | c :: cs =>
      if c = '.' then [] :: splitDot cs
      else
        match splitDot cs with
        | [] => [[c]]
        | h :: t => (c :: h) :: t

/-- Modelled from the library call `pd.to_numeric(..., errors="coerce")`'s
string parser: optional surrounding whitespace, an optional sign, then
decimal digits with an optional single decimal point ("72.5", "-3", ".5",
"7.").  Anything else (in particular any non-numeric string) fails to
parse.  Scientific notation is outside the model; no claim depends on it. -/
def parseDecimal (s : String) : Option ℚ :=
  let t := trimChars s.data
  let sgn : ℤ := if t.head? = some '-' then -1 else 1
  let body := if t.head? = some '-' ∨ t.head? = some '+' then t.drop 1 else t
  match splitDot body with
  | [ip] =>
      if ip ≠ [] ∧ ip.all Char.isDigit then
        some ((sgn * (digitsVal ip : ℤ) : ℤ) : ℚ)
      else none
  | [ip, fp] =>
      if (ip ≠ [] ∨ fp ≠ []) ∧ ip.all Char.isDigit ∧ fp.all Char.isDigit then
        some (((sgn * (digitsVal (ip ++ fp) : ℤ) : ℤ) : ℚ) / ((10 : ℚ) ^ fp.length))
      else none
  | _ => none

/-- `pd.to_numeric(cell, errors="coerce")`: numbers pass through, parseable
strings become their numeric value, everything else becomes missing. -/
def toNumericCell (c : Cell) : Cell :=
  match c with
  | .num q => .num q
  | .str s => match parseDecimal s with
              | some q => .num q
              | none => .null
  | .null => .null

/-- `str(cell)` / `.astype(str)` as used by the sector comparison: strings
render as themselves; numbers and missing values render as Python would
(the model's rendering choice is irrelevant to the claims, which use string
sectors). -/
def pyStr (c : Cell) : String :=
  match c with
  | .str s => s
  | .num q => toString q
  | .null => "nan"

/-- Lines 21–24: rename the found company column to `"Company"`, or
synthesize it from the index as the new first column when no candidate
matched (`company_col` is the value of `pick_col` computed at line 17). -/
def companyStep (company_col : Option String) (df : DataFrame) : DataFrame :=
  match company_col with
  | some c => if c = "Company" then df else df.renameCol c "Company"
  | none =>
      if df.hasCol "Company" then df
      else df.insertCol0 "Company" (indexStr df.rows.length)

/-- Lines 26–27: rename the found ESG-score column to `"ESG Score"`
(`esg_col` is the value of `pick_col` computed at line 18). -/
def esgRenameStep (esg_col : Option String) (df : DataFrame) : DataFrame :=
  match esg_col with
  | some c => if c = "ESG Score" then df else df.renameCol c "ESG Score"
  | none => df

/-- Lines 28–29: coerce a present `"ESG Score"` column to numeric. -/
def esgCoerceStep (df : DataFrame) : DataFrame :=
  if df.hasCol "ESG Score" then df.mapCol "ESG Score" toNumericCell else df

/-- Lines 31–32: rename the found sector column to `"Sector"`
(`sector_col` is the value of `pick_col` computed at line 19). -/
def sectorRenameStep (sector_col : Option String) (df : DataFrame) : DataFrame :=
  match sector_col with
  | some c => if c = "Sector" then df else df.renameCol c "Sector"
  | none => df

/-- Lines 33–34: default a missing `"Sector"` column to `"Unknown"`. -/
def sectorDefaultStep (df : DataFrame) : DataFrame :=
  if df.hasCol "Sector" then df else df.appendColConst "Sector" (Cell.str "Unknown")

/-- Column normalization, lines 14–34 of `generate_recommendation`:
resolve the company / ESG-score / sector source columns by the fixed
candidate lists (all three resolved up front on the copied input, lines
17–19), rename them to `"Company"` / `"ESG Score"` / `"Sector"`, synthesize
`Company` from the index when no candidate matches, coerce the ESG-score
column to numeric, and default `Sector` to `"Unknown"`. -/
def normalizeDF (esg : DataFrame) : DataFrame :=
  sectorDefaultStep
    (sectorRenameStep (pick_col esg.copy ["Sector", "sector", "Industry", "industry"])
      (esgCoerceStep
        (esgRenameStep (pick_col esg.copy ["ESG Score", "esg_score", "esg", "score"])
          (companyStep
            (pick_col esg.copy ["Company", "Company Name", "Stock", "Ticker", "Symbol", "Name"])
            esg.copy))))

/-- Sector filter, lines 37–38: a truthy filter whose lowercase form is not
`"all"` keeps exactly the rows whose rendered `Sector` value equals it;
otherwise all rows are kept.  (`None` and `""` are both falsy in Python.) -/
def applySectorFilter (sector : Option String) (df : DataFrame) : DataFrame :=
  match sector with
  | none => df
  | some s =>
      if s ≠ "" ∧ lowerStr s ≠ "all" then
        match df.colIdx "Sector" with
        | none => df   -- pandas would raise KeyError; normalization guarantees a Sector column
        | some i => { df with rows := df.rows.filter (fun r => pyStr (getCell r i) = s) }
      else df

/-- Score key used by `sort_values("ESG Score", ...)`: the numeric value when
present, missing (NaN) otherwise. -/
def scoreKey (i : Nat) (row : List Cell) : Option ℚ :=
  match getCell row i with
  | .num q => some q
  | _ => none

/-- Comparator realising `sort_values("ESG Score", ascending=False)` on rows
tagged with their original position: higher scores first, ties in original
order, missing scores after every present score (pandas' default
`na_position="last"`), preserving their original relative order. -/
def rowLE (i : Nat) (a b : Nat × List Cell) : Bool :=
  match scoreKey i a.2, scoreKey i b.2 with
  | some qa, some qb => decide (qb < qa) || (decide (qa = qb) && decide (a.1 ≤ b.1))
  | some _, none => true
  | none, some _ => false
  | none, none => decide (a.1 ≤ b.1)

/-- `rowLE` as a relation, for use with `List.insertionSort`. -/
def rowRel (i : Nat) : (Nat × List Cell) → (Nat × List Cell) → Prop :=
  fun a b => rowLE i a b = true

instance (i : Nat) : DecidableRel (rowRel i) :=
  fun a b => inferInstanceAs (Decidable (rowLE i a b = true))

instance (i : Nat) : IsTotal (Nat × List Cell) (rowRel i) :=
  ⟨fun a b => by
    unfold rowRel rowLE
    cases ha : scoreKey i a.2 with
    | none =>
        cases hb : scoreKey i b.2 with
        | none => simp only [decide_eq_true_eq]; omega
        | some qb => simp
    | some qa =>
        cases hb : scoreKey i b.2 with
        | none => simp
        | some qb =>
            simp only [Bool.or_eq_true, Bool.and_eq_true, decide_eq_true_eq]
            rcases lt_trichotomy qa qb with h | h | h
            · exact Or.inr (Or.inl h)
            · by_cases hn : a.1 ≤ b.1
              · exact Or.inl (Or.inr ⟨h, hn⟩)
              · exact Or.inr (Or.inr ⟨h.symm, by omega⟩)
            · exact Or.inl (Or.inl h)⟩

instance (i : Nat) : IsTrans (Nat × List Cell) (rowRel i) :=
  ⟨fun a b c hab hbc => by
    unfold rowRel rowLE at hab hbc ⊢
    cases ha : scoreKey i a.2 <;> cases hb : scoreKey i b.2 <;>
      cases hc : scoreKey i c.2 <;> rw [ha, hb] at hab <;> rw [hb, hc] at hbc <;>
      simp only [Bool.or_eq_true, Bool.and_eq_true, decide_eq_true_eq] at hab hbc ⊢
    all_goals try exact absurd hab (by decide)
    all_goals try exact absurd hbc (by decide)
    all_goals try omega
    rcases hab with h1 | ⟨h1, h1n⟩ <;> rcases hbc with h2 | ⟨h2, h2n⟩
    · exact Or.inl (h2.trans h1)
    · exact Or.inl (h2 ▸ h1)
    · exact Or.inl (h1.symm ▸ h2)
    · exact Or.inr ⟨h1.trans h2, by omega⟩⟩

/-- The rows, tagged with their original position, sorted by the descending
score order. -/
def sortKeyed (i : Nat) (rows : List (List Cell)) : List (Nat × List Cell) :=
  List.insertionSort (rowRel i) rows.enum

/-- `df.sort_values(col, ascending=False)`: rows reordered descending by the
`col` value, missing values last. -/
def DataFrame.sortValuesDesc (df : DataFrame) (col : String) : DataFrame :=
  match df.colIdx col with
  | none => df   -- pandas would raise KeyError; guarded by column-presence checks at the call sites
  | some i => { df with rows := (sortKeyed i df.rows).map Prod.snd }

/-- `df.head(n)`. -/
def DataFrame.head (df : DataFrame) (n : Nat) : DataFrame :=
  { df with rows := df.rows.take n }

/-- One step of the pseudo-random generator.  Modelled from the library:
numpy seeds a Mersenne Twister from `random_state`; the model uses a 64-bit
linear congruential generator, preserving what the code relies on —
a deterministic stream that is a function of the seed alone. -/
def lcgNext (s : Nat) : Nat :=
  (6364136223846793005 * s + 1442695040888963407) % (2 ^ 64)

/-- Draw `fuel` elements from `pool` without replacement, driving the choice
of each position from the generator state. -/
def drawAll (g : Nat) (pool : List Nat) : Nat → List Nat
  | 0 => []
  | fuel + 1 =>
      match pool with
      | [] => []
      | _ :: _ =>
          let g2 := lcgNext g
          let i := g2 % pool.length
          pool.getD i 0 :: drawAll g2 (pool.eraseIdx i) fuel

/-- The seed-determined permutation of row positions `0, …, n-1` behind
`numpy.random.RandomState(seed).choice(n, size=k, replace=False)`. -/
def seededPerm (seed n : Nat) : List Nat :=
  drawAll (lcgNext (seed + 1)) (List.range n) n

/-- `df.sample(n=k, random_state=seed)`: the first `k` positions of the
seed-determined permutation, mapped back to rows. -/
def DataFrame.sample (df : DataFrame) (k seed : Nat) : DataFrame :=
  { df with
    rows := ((seededPerm seed df.rows.length).take k).map (fun i => df.rows.getD i []) }

/-- `df.reset_index(drop=True)` (line 55): re-number the positional index;
row content is unchanged, and the model's index is positional already. -/
def DataFrame.resetIndex (df : DataFrame) : DataFrame := df

/-- Risk policy, lines 43–53: `r = (risk or "").lower()`; `"low"` and
`"medium"` use the descending ESG sort when the `"ESG Score"` column exists,
`"high"` and every other value take the seeded random sample.  The source's
single-use local bindings `r` and `sorted_df` are inlined. -/
def riskSelect (risk : Option String) (top_n random_state : Nat)
    (df : DataFrame) : DataFrame :=
  if lowerStr (risk.getD "") = "low" ∧ df.hasCol "ESG Score" = true then
    (df.sortValuesDesc "ESG Score").head top_n
  else if lowerStr (risk.getD "") = "medium" ∧ df.hasCol "ESG Score" = true then
    (df.sortValuesDesc "ESG Score").head
      (max 1 ((df.sortValuesDesc "ESG Score").rows.length / 2))
  else if lowerStr (risk.getD "") = "high" then
    df.sample (min top_n df.rows.length) random_state
  else
    df.sample (min top_n df.rows.length) random_state

/-- `generate_recommendation` (lines 4–55).  `prices` and `balance` are
accepted and ignored, as in the source.  `esg = None` and `esg.empty` both
return `pd.DataFrame()` (lines 11–12). -/
def generate_recommendation (sector risk : Option String)
    (prices balance esg : Option DataFrame) (top_n random_state : Nat) :
    DataFrame :=
  match esg with
  | none => emptyDataFrame
  | some esgT =>
      if esgT.empty = true then emptyDataFrame
      else if (applySectorFilter sector (normalizeDF esgT)).empty = true then
        emptyDataFrame
      else
        (riskSelect risk top_n random_state
          (applySectorFilter sector (normalizeDF esgT))).resetIndex

/-- Model of one call across the caller boundary: line 14 copies the input
(`df = esg.copy()`) and every later mutation (`inplace` rename, `insert`,
column assignment, filtering) targets that copy, so the call returns the
result next to the caller's `esg` object as the caller sees it afterwards. -/
def select_call (sector risk : Option String)
    (prices balance esg : Option DataFrame) (top_n random_state : Nat) :
    DataFrame × Option DataFrame :=
  (generate_recommendation sector risk prices balance esg top_n random_state, esg)

/-- Every row has exactly one cell per column — the tabular well-formedness
the spec's `RawTable` promises (all columns equal length). -/
def DataFrame.WF (df : DataFrame) : Prop :=
  ∀ r ∈ df.rows, r.length = df.header.length

/-- The values of the column at position `i`, top to bottom. -/
def colAt (df : DataFrame) (i : Nat) : List Cell :=
  df.rows.map (fun r => getCell r i)

/-- A 12-row canonical table with distinct numeric ESG scores. -/
def tableTwelveScored : DataFrame :=
  ⟨["Company", "ESG Score"],
   (List.range 12).map (fun k => [Cell.str (toString k), Cell.num k])⟩

/-- A 12-row table whose ESG-score column holds only unparseable strings, so
after normalization no row has a present numeric score. -/
def tableTwelveUnparseable : DataFrame :=
  ⟨["Company", "ESG Score"],
   (List.range 12).map (fun k => [Cell.str (toString k), Cell.str "n/a"])⟩

/-- A 5-row canonical table with a tie between rows 0 and 3 and missing
scores in rows 1 and 4. -/
def tableTies : DataFrame :=
  ⟨["Company", "ESG Score"],
   [[Cell.str "a", Cell.num 5], [Cell.str "b", Cell.null],
    [Cell.str "c", Cell.num 9], [Cell.str "d", Cell.num 5],
    [Cell.str "e", Cell.null]]⟩

/-- A 1-row table whose single row has sector `"Energy"`. -/
def tableOneEnergy : DataFrame :=
  ⟨["Company", "Sector"], [[Cell.str "A", Cell.str "Energy"]]⟩

/-- A raw table with none of the company candidate columns. -/
def tableNoCompany : DataFrame :=
  ⟨["score"], [[Cell.num 3], [Cell.num 1], [Cell.num 2]]⟩

/-- A raw table whose score column (named `"score"`) mixes a numeric-like
string, an unparseable string and a number. -/
def tableMixedScores : DataFrame :=
  ⟨["Ticker", "score"],
   [[Cell.str "AAA", Cell.str "72.5"], [Cell.str "BBB", Cell.str "n/a"],
    [Cell.str "CCC", Cell.num 3]]⟩

end GreenGenie

namespace GreenGenie

/-! ## Helper lemmas -/

theorem length_drawAll (fuel : Nat) : ∀ (g : Nat) (pool : List Nat),
    (drawAll g pool fuel).length = min fuel pool.length := by
  induction fuel with
  | zero => intro g pool; simp [drawAll]
  | succ n ih =>
      intro g pool
      cases pool with
      | nil => simp [drawAll]
      | cons p ps =>
          simp only [drawAll, List.length_cons, ih, List.length_eraseIdx]
          split
          · omega
          · rename_i hcontra
            exact absurd (Nat.mod_lt (lcgNext g) (by omega)) hcontra

theorem length_seededPerm (seed n : Nat) : (seededPerm seed n).length = n := by
  simp [seededPerm, length_drawAll]

theorem sample_rows_length (df : DataFrame) (k s : Nat) :
    (df.sample k s).rows.length = min k df.rows.length := by
  simp [DataFrame.sample, length_seededPerm]

theorem sample_rows_congr {df1 df2 : DataFrame} (k s : Nat)
    (h : df1.rows = df2.rows) : (df1.sample k s).rows = (df2.sample k s).rows := by
  simp [DataFrame.sample, h]

theorem sortKeyed_perm (i : Nat) (rows : List (List Cell)) :
    List.Perm (sortKeyed i rows) rows.enum :=
  List.perm_insertionSort _ _

theorem sortKeyed_length (i : Nat) (rows : List (List Cell)) :
    (sortKeyed i rows).length = rows.length := by
  rw [(sortKeyed_perm i rows).length_eq]
  simp

theorem sortValuesDesc_rows_length (df : DataFrame) (c : String) :
    (df.sortValuesDesc c).rows.length = df.rows.length := by
  unfold DataFrame.sortValuesDesc
  cases h : df.colIdx c with
  | none => rfl
  | some i => simp [sortKeyed_length]

theorem head_rows (df : DataFrame) (n : Nat) :
    (df.head n).rows = df.rows.take n := rfl

theorem resetIndex_eq (df : DataFrame) : df.resetIndex = df := rfl

theorem riskSelect_length_bound (risk : Option String) (t s : Nat)
    (df : DataFrame) :
    (riskSelect risk t s df).rows.length ≤ max t (max 1 (df.rows.length / 2)) := by
  unfold riskSelect
  split_ifs with h1 h2 h3
  · simp only [head_rows, List.length_take, sortValuesDesc_rows_length]
    omega
  · simp only [head_rows, List.length_take, sortValuesDesc_rows_length]
    omega
  · rw [sample_rows_length]
    omega
  · rw [sample_rows_length]
    omega

/-! ## C1 — null vs empty ESG table -/

/-- C1 counterexample: the claim says a null/absent ESG table is a hard
`MissingDataset` failure, distinct from the empty-result value produced for
an empty-but-present table.  In the code (lines 11–12) both cases return the
very same `pd.DataFrame()` value and no failure is ever raised: at the
concrete inputs `esg = None` and `esg =` the empty frame, the two outcomes
coincide. -/
theorem C1_counterexample_null_equals_empty :
    generate_recommendation none (some "Low") none none none 5 42 = emptyDataFrame ∧
    generate_recommendation none (some "Low") none none (some emptyDataFrame) 5 42 =
      emptyDataFrame := by
  exact ⟨rfl, rfl⟩

/-- C1 (amended): a null/absent ESG table makes `select` return the empty
result value `pd.DataFrame()` — the same value an empty-but-present table
yields — rather than failing; there is no distinct hard failure. -/
theorem C1_null_input_returns_empty (sector risk : Option String)
    (prices balance : Option DataFrame) (t s : Nat) :
    generate_recommendation sector risk prices balance none t s = emptyDataFrame ∧
    generate_recommendation sector risk prices balance (some emptyDataFrame) t s =
      emptyDataFrame := by
  refine ⟨rfl, ?_⟩
  simp [generate_recommendation, emptyDataFrame, DataFrame.empty]

/-! ## C2 — result length bound -/

/-- C2 counterexample: with the 12-row scored table, `riskLevel="Medium"` and
the default `topN = 5`, the result has 6 rows — the claimed bound
`length ≤ topN` fails (lines 47–49 take `max(1, count//2)` rows regardless
of `topN`). -/
theorem C2_counterexample_medium_exceeds_topN :
    ¬ ((generate_recommendation none (some "Medium") none none
        (some tableTwelveScored) 5 42).rows.length ≤ 5) := by
  decide

/-- C2 (amended): the result of `select` has at most
`max topN (max 1 (floor(filteredCount / 2)))` rows, where `filteredCount` is
the row count of the normalized, sector-filtered table: the `"low"`,
`"high"` and fallback branches return at most `topN` rows, while the
`"medium"` branch returns `max 1 (floor(count/2))` rows, which may exceed
`topN`. -/
theorem C2_result_length_bound (sector risk : Option String)
    (prices balance : Option DataFrame) (T : DataFrame) (t s : Nat) :
    (generate_recommendation sector risk prices balance (some T) t s).rows.length ≤
      max t (max 1 ((applySectorFilter sector (normalizeDF T)).rows.length / 2)) := by
  show (if T.empty = true then emptyDataFrame
    else if (applySectorFilter sector (normalizeDF T)).empty = true then emptyDataFrame
    else (riskSelect risk t s
      (applySectorFilter sector (normalizeDF T))).resetIndex).rows.length ≤ _
  split_ifs with h1 h2
  · simp [emptyDataFrame]
  · simp [emptyDataFrame]
  · rw [resetIndex_eq]
    exact riskSelect_length_bound _ _ _ _

/-! ## C3 — fallback condition for low/medium -/

theorem riskSelect_sample_of_unranked (risk : Option String) (t s : Nat)
    (df : DataFrame) (h1 : lowerStr (risk.getD "") ≠ "low")
    (h2 : lowerStr (risk.getD "") ≠ "medium") :
    riskSelect risk t s df = df.sample (min t df.rows.length) s := by
  unfold riskSelect
  rw [if_neg (fun hc => h1 hc.1), if_neg (fun hc => h2 hc.1)]
  split_ifs <;> rfl

/-- C3 counterexample: on the 12-row table whose ESG-score column holds only
unparseable strings, every normalized score is absent, yet `"Medium"` (and
`"Low"`) still take the sort-based branch — lines 45 and 47 test only the
*presence of the column*, not of any value.  Here `"Medium"` returns 6 rows
while the default random policy (an unrecognized risk level) returns 5, so
the two outcomes differ, refuting the claimed fall-through. -/
theorem C3_counterexample_column_present_no_scores :
    (applySectorFilter none (normalizeDF tableTwelveUnparseable)).colIdx "ESG Score" =
      some 1 ∧
    ((applySectorFilter none (normalizeDF tableTwelveUnparseable)).rows.all
      (fun r => getCell r 1 = Cell.null)) = true ∧
    (generate_recommendation none (some "Medium") none none
      (some tableTwelveUnparseable) 5 42).rows.length = 6 ∧
    (generate_recommendation none (some "unrecognized") none none
      (some tableTwelveUnparseable) 5 42).rows.length = 5 ∧
    generate_recommendation none (some "Medium") none none
        (some tableTwelveUnparseable) 5 42 ≠
      generate_recommendation none (some "unrecognized") none none
        (some tableTwelveUnparseable) 5 42 := by
  exact ⟨by decide, by decide, by decide, by decide, by decide⟩

/-- C3 (amended): the fall-through of `"low"`/`"medium"` to the default
seeded-sampling policy happens exactly when the filtered table has no
`"ESG Score"` column at all; a present column whose values are all absent
still uses the sort-based branches.  When the column is absent, `"Low"`,
`"Medium"` and every unrecognized risk level all return the same seeded
uniform sample. -/
theorem C3_no_column_falls_through (df : DataFrame) (t s : Nat)
    (h : df.hasCol "ESG Score" = false) :
    riskSelect (some "Low") t s df = df.sample (min t df.rows.length) s ∧
    riskSelect (some "Medium") t s df = df.sample (min t df.rows.length) s ∧
    ∀ u : String, lowerStr u ≠ "low" → lowerStr u ≠ "medium" →
      riskSelect (some u) t s df = df.sample (min t df.rows.length) s := by
  refine ⟨?_, ?_, fun u hu1 hu2 => riskSelect_sample_of_unranked (some u) t s df hu1 hu2⟩
  · unfold riskSelect
    rw [if_neg (fun hc => by rw [h] at hc; exact Bool.false_ne_true hc.2),
      if_neg (fun hc => by exact absurd hc.1 (by decide)),
      if_neg (by decide)]
  · unfold riskSelect
    rw [if_neg (fun hc => by exact absurd hc.1 (by decide)),
      if_neg (fun hc => by rw [h] at hc; exact Bool.false_ne_true hc.2),
      if_neg (by decide)]

/-- Witness for `C3_no_column_falls_through` at a concrete table with no
ESG-score column. -/
theorem C3_no_column_falls_through_witness :
    tableOneEnergy.hasCol "ESG Score" = false ∧
    riskSelect (some "Low") 2 7 tableOneEnergy =
      tableOneEnergy.sample (min 2 tableOneEnergy.rows.length) 7 := by
  exact ⟨by decide, (C3_no_column_falls_through tableOneEnergy 2 7 (by decide)).1⟩

/-! ## C7 — deterministic reproducibility of the random branch -/

/-- C7: for `"high"` — or any risk level that is neither `"low"` nor
`"medium"`, which all share the seeded-sampling branch — two calls with the
same seed and the same filtered row list (same members, same order) return
identical row lists, of length `min topN count`. -/
theorem C7_seeded_sample_deterministic (df1 df2 : DataFrame)
    (risk : Option String) (t s : Nat) (hrows : df1.rows = df2.rows)
    (h1 : lowerStr (risk.getD "") ≠ "low")
    (h2 : lowerStr (risk.getD "") ≠ "medium") :
    (riskSelect risk t s df1).rows = (riskSelect risk t s df2).rows ∧
    (riskSelect risk t s df1).rows.length = min t df1.rows.length := by
  rw [riskSelect_sample_of_unranked risk t s df1 h1 h2,
    riskSelect_sample_of_unranked risk t s df2 h1 h2]
  constructor
  · rw [hrows]
    exact sample_rows_congr _ _ hrows
  · rw [sample_rows_length]
    omega

/-- Witness for `C7_seeded_sample_deterministic`: two frames with different
headers but the same rows, risk `"High"`, seed 5. -/
theorem C7_seeded_sample_deterministic_witness :
    lowerStr ((some "High" : Option String).getD "") ≠ "low" ∧
    (riskSelect (some "High") 3 5 tableTies).rows =
      (riskSelect (some "High") 3 5 (⟨["X", "Y"], tableTies.rows⟩ : DataFrame)).rows ∧
    (riskSelect (some "High") 3 5 tableTies).rows.length =
      min 3 tableTies.rows.length := by
  have h := C7_seeded_sample_deterministic tableTies
    (⟨["X", "Y"], tableTies.rows⟩ : DataFrame) (some "High") 3 5 rfl
    (by decide) (by decide)
  exact ⟨by decide, h.1, h.2⟩

/-! ## C8 — sector-filter case handling -/

theorem applySectorFilter_none (df : DataFrame) :
    applySectorFilter none df = df := rfl

theorem applySectorFilter_keep (s0 : String) (df : DataFrame)
    (h : s0 = "" ∨ lowerStr s0 = "all") :
    applySectorFilter (some s0) df = df := by
  show (if s0 ≠ "" ∧ lowerStr s0 ≠ "all" then
      match df.colIdx "Sector" with
      | none => df
      | some i => { df with rows := df.rows.filter (fun r => pyStr (getCell r i) = s0) }
    else df) = df
  rcases h with h | h
  · rw [if_neg (fun hc => hc.1 h)]
  · rw [if_neg (fun hc => hc.2 h)]

/-- C8 counterexample: the empty-string sector filter is falsy in Python
(line 37 tests `if sector and ...`), so it keeps *all* rows, although it is
not case-insensitively equal to `"all"` and no row's sector equals it — the
claim would demand an empty result at this input, but one row is returned. -/
theorem C8_counterexample_empty_filter :
    lowerStr "" ≠ "all" ∧
    generate_recommendation (some "") (some "Low") none none
        (some tableOneEnergy) 5 42 =
      generate_recommendation none (some "Low") none none (some tableOneEnergy) 5 42 ∧
    (generate_recommendation (some "") (some "Low") none none
      (some tableOneEnergy) 5 42).rows.length = 1 ∧
    (∀ r ∈ tableOneEnergy.rows, pyStr (getCell r 1) ≠ "") := by
  exact ⟨by decide, by decide, by decide, by decide⟩

/-- C8 (amended): a sector filter that is absent, *empty*, or
case-insensitively equal to `"all"` keeps all rows — `select` returns the
very same result for `"All"`, `"all"` and no filter; any *non-empty* filter
not case-insensitively equal to `"all"` keeps exactly the rows whose
canonical sector value is case-sensitively equal to it. -/
theorem C8_sector_filter_case_insensitive (T df : DataFrame)
    (risk : Option String) (prices balance : Option DataFrame) (t s : Nat)
    (flt : String) (i : Nat) (h1 : flt ≠ "") (h2 : lowerStr flt ≠ "all")
    (h3 : df.colIdx "Sector" = some i) :
    generate_recommendation (some "All") risk prices balance (some T) t s =
      generate_recommendation (some "all") risk prices balance (some T) t s ∧
    generate_recommendation (some "All") risk prices balance (some T) t s =
      generate_recommendation none risk prices balance (some T) t s ∧
    (applySectorFilter (some flt) df).rows =
      df.rows.filter (fun r => pyStr (getCell r i) = flt) := by
  refine ⟨?_, ?_, ?_⟩
  · simp only [generate_recommendation,
      applySectorFilter_keep "All" _ (Or.inr (by decide)),
      applySectorFilter_keep "all" _ (Or.inr (by decide))]
  · simp only [generate_recommendation,
      applySectorFilter_keep "All" _ (Or.inr (by decide)), applySectorFilter_none]
  · show (if flt ≠ "" ∧ lowerStr flt ≠ "all" then
        match df.colIdx "Sector" with
        | none => df
        | some j => { df with rows := df.rows.filter (fun r => pyStr (getCell r j) = flt) }
      else df).rows = _
    rw [if_pos ⟨h1, h2⟩, h3]

/-! ## C6 — ranked medium branch

The tie order between equal scores is a property of the library's default
sort algorithm (`kind='quicksort'`, documented as not stable), so nothing
here relies on it: the `rowRel`-sorted reading of the sort output is used
only for conclusions that hold under any descending missing-last sort. -/

theorem sortKeyed_sorted (i : Nat) (rows : List (List Cell)) :
    List.Sorted (rowRel i) (sortKeyed i rows) :=
  List.sorted_insertionSort _ _

theorem hasCol_of_colIdx_some {df : DataFrame} {n : String} {i : Nat}
    (h : df.colIdx n = some i) : df.hasCol n = true := by
  unfold DataFrame.colIdx at h
  rcases List.findIdx?_eq_some_iff_getElem.mp h with ⟨hlt, hp, _⟩
  have hmem : n ∈ df.header := by
    have he : df.header.get ⟨i, hlt⟩ = n := of_decide_eq_true hp
    rw [← he]
    exact df.header.get_mem _ _
  exact List.elem_eq_true_of_mem hmem

/-- C6: with a present `"ESG Score"` column and risk level `"medium"`, the
selector returns the first `max 1 (count / 2)` rows of the descending-sorted
table — exactly `max 1 (count / 2)` rows for a non-empty table, whatever
`topN` is (the result does not depend on `topN` at all); the sorted list is,
as in C5, the `rowRel i`-sorted permutation of the position-tagged rows, so
these are the highest-scored rows in descending order. -/
theorem C6_medium_risk_half_count (df : DataFrame) (risk : Option String)
    (t s i : Nat) (hr : lowerStr (risk.getD "") = "medium")
    (hi : df.colIdx "ESG Score" = some i) (hne : df.rows ≠ []) :
    riskSelect risk t s df =
      (df.sortValuesDesc "ESG Score").head (max 1 (df.rows.length / 2)) ∧
    (riskSelect risk t s df).rows.length = max 1 (df.rows.length / 2) ∧
    (∀ t2 : Nat, riskSelect risk t2 s df = riskSelect risk t s df) ∧
    (df.sortValuesDesc "ESG Score").rows = (sortKeyed i df.rows).map Prod.snd ∧
    List.Perm (sortKeyed i df.rows) df.rows.enum ∧
    List.Sorted (rowRel i) (sortKeyed i df.rows) := by
  have hcol := hasCol_of_colIdx_some hi
  have hnotlow : ¬ (lowerStr (risk.getD "") = "low" ∧ df.hasCol "ESG Score" = true) :=
    fun hc => by rw [hr] at hc; exact absurd hc.1 (by decide)
  have hlen : (df.sortValuesDesc "ESG Score").rows.length = df.rows.length :=
    sortValuesDesc_rows_length df _
  have hb : ∀ t2 : Nat, riskSelect risk t2 s df =
      (df.sortValuesDesc "ESG Score").head (max 1 (df.rows.length / 2)) := by
    intro t2
    unfold riskSelect
    rw [if_neg hnotlow, if_pos ⟨hr, hcol⟩, hlen]
  refine ⟨hb t, ?_, fun t2 => by rw [hb t2, hb t], ?_,
    sortKeyed_perm i df.rows, sortKeyed_sorted i df.rows⟩
  · rw [hb t, head_rows, List.length_take, hlen]
    have h0 : df.rows.length ≠ 0 := fun h0 => hne (List.length_eq_zero.mp h0)
    omega
  · unfold DataFrame.sortValuesDesc
    rw [hi]

/-- Witness for `C6_medium_risk_half_count` on the concrete 5-row table:
`max 1 (5 / 2) = 2` rows, for any `topN`. -/
theorem C6_medium_risk_half_count_witness :
    lowerStr ((some "Medium" : Option String).getD "") = "medium" ∧
    tableTies.colIdx "ESG Score" = some 1 ∧ tableTies.rows ≠ [] ∧
    (riskSelect (some "Medium") 5 42 tableTies).rows.length =
      max 1 (tableTies.rows.length / 2) ∧
    (∀ t2 : Nat, riskSelect (some "Medium") t2 42 tableTies =
      riskSelect (some "Medium") 5 42 tableTies) := by
  have h := C6_medium_risk_half_count tableTies (some "Medium") 5 42 1
    (by decide) (by decide) (by decide)
  exact ⟨by decide, by decide, by decide, h.2.1, h.2.2.1⟩

/-- Witness for `C8_sector_filter_case_insensitive` at concrete tables and
the concrete filter `"Energy"`. -/
theorem C8_sector_filter_case_insensitive_witness :
    ("Energy" : String) ≠ "" ∧ lowerStr "Energy" ≠ "all" ∧
    (normalizeDF tableOneEnergy).colIdx "Sector" = some 1 ∧
    (applySectorFilter (some "Energy") (normalizeDF tableOneEnergy)).rows =
      (normalizeDF tableOneEnergy).rows.filter
        (fun r => pyStr (getCell r 1) = "Energy") := by
  exact ⟨by decide, by decide, by decide,
    (C8_sector_filter_case_insensitive tableOneEnergy (normalizeDF tableOneEnergy)
      none none none 5 42 "Energy" 1 (by decide) (by decide) (by decide)).2.2⟩

/-! ## C10 — the caller's table is never mutated -/

/-- C10: a call to `select` leaves the caller-supplied ESG table exactly as
it was — line 14 copies the input and every in-place mutation (renames, the
`Company` insert, the `Sector` assignment, filtering) targets the copy, so
across the call boundary the caller's object is returned unchanged next to
the freshly built result. -/
theorem C10_input_table_unmodified (sector risk : Option String)
    (prices balance esg : Option DataFrame) (t s : Nat) :
    (select_call sector risk prices balance esg t s).2 = esg ∧
    (select_call sector risk prices balance esg t s).1 =
      generate_recommendation sector risk prices balance esg t s :=
  ⟨rfl, rfl⟩

/-! ## Normalization transport lemmas (for C4 and C9) -/

theorem copy_eq (df : DataFrame) : df.copy = df := rfl

theorem WF_transport {df1 df2 : DataFrame} (hr : df2.rows = df1.rows)
    (hh : df2.header.length = df1.header.length) (h : df1.WF) : df2.WF := by
  intro r hrm
  rw [hh]
  exact h r (by rw [← hr]; exact hrm)

theorem colAt_congr_rows {df1 df2 : DataFrame} (hr : df2.rows = df1.rows)
    (j : Nat) : colAt df2 j = colAt df1 j := by
  unfold colAt
  rw [hr]

theorem colIdx_lt_length {df : DataFrame} {n : String} {j : Nat}
    (h : df.colIdx n = some j) : j < df.header.length := by
  rcases List.findIdx?_eq_some_iff_getElem.mp h with ⟨hlt, _, _⟩
  exact hlt

theorem colIdx_getElem {df : DataFrame} {n : String} {j : Nat}
    (h : df.colIdx n = some j) : df.header.getD j "" = n := by
  rcases List.findIdx?_eq_some_iff_getElem.mp h with ⟨hlt, hp, _⟩
  have he : df.header[j] = n := of_decide_eq_true hp
  simp [List.getD_eq_getElem?_getD, List.getElem?_eq_getElem hlt, he]

theorem colIdx_ne_of_distinct {df : DataFrame} {nA nB : String} {a b : Nat}
    (hA : df.colIdx nA = some a) (hB : df.colIdx nB = some b)
    (hne : nA ≠ nB) : a ≠ b := by
  intro hab
  subst hab
  rw [← colIdx_getElem hA, colIdx_getElem hB] at hne
  exact hne rfl

theorem hasCol_false_iff {df : DataFrame} {n : String} :
    df.hasCol n = false ↔ n ∉ df.header := by
  unfold DataFrame.hasCol
  constructor
  · intro h hmem
    have := List.elem_eq_true_of_mem hmem
    rw [show df.header.contains n = List.elem n df.header from rfl] at h
    rw [h] at this
    cases this
  · intro h
    cases hc : df.header.contains n with
    | false => rfl
    | true =>
        have : n ∈ df.header :=
          List.elem_iff.mp (by rw [show df.header.contains n = List.elem n df.header from rfl] at hc; exact hc)
        exact absurd this h

theorem colIdx_isSome_of_hasCol {df : DataFrame} {n : String}
    (h : df.hasCol n = true) : ∃ j, df.colIdx n = some j := by
  have hmem : n ∈ df.header := List.elem_iff.mp h
  have hs : (df.colIdx n).isSome = true := by
    unfold DataFrame.colIdx
    rw [List.findIdx?_isSome, List.any_eq_true]
    exact ⟨n, hmem, by simp⟩
  exact Option.isSome_iff_exists.mp hs

theorem colIdx_renameCol_of_ne (df : DataFrame) {old nw n : String}
    (h1 : n ≠ old) (h2 : n ≠ nw) :
    (df.renameCol old nw).colIdx n = df.colIdx n := by
  unfold DataFrame.renameCol DataFrame.colIdx
  simp only [List.findIdx?_map]
  congr 1
  funext x
  by_cases hx : x = old
  · subst hx
    simp [Function.comp, Ne.symm h2, Ne.symm h1]
  · simp [Function.comp, hx]

theorem renameList_findIdx (old nw : String) : ∀ (l : List String),
    l.contains nw = false →
    (l.map (fun x => if x = old then nw else x)).findIdx?
        (fun x => decide (x = nw)) =
      l.findIdx? (fun x => decide (x = old))
  | [], _ => rfl
  | x :: xs, h => by
      have hx : ¬ (nw == x) = true ∧ xs.contains nw = false := by
        simp only [List.contains_cons, Bool.or_eq_false_iff] at h
        exact ⟨by simp [h.1], h.2⟩
      have hxnw : x ≠ nw := fun he => hx.1 (by simp [he])
      simp only [List.map_cons, List.findIdx?_cons]
      by_cases hxo : x = old
      · subst hxo
        simp
      · rw [if_neg hxo]
        simp only [decide_eq_true_eq]
        rw [if_neg hxnw, if_neg hxo, List.findIdx?_start_succ, List.findIdx?_start_succ,
          renameList_findIdx old nw xs hx.2]

theorem colIdx_renameCol_self (df : DataFrame) {old nw : String}
    (h : df.hasCol nw = false) :
    (df.renameCol old nw).colIdx nw = df.colIdx old := by
  unfold DataFrame.renameCol DataFrame.colIdx
  exact renameList_findIdx old nw df.header h

theorem hasCol_renameCol_false {df : DataFrame} {old nw n : String}
    (h : df.hasCol n = false) (hn : n ≠ nw) :
    (df.renameCol old nw).hasCol n = false := by
  rw [hasCol_false_iff] at h ⊢
  intro hmem
  rcases List.mem_map.mp hmem with ⟨x, hx, hfx⟩
  by_cases hxo : x = old
  · rw [if_pos hxo] at hfx
    exact hn hfx.symm
  · rw [if_neg hxo] at hfx
    exact h (hfx ▸ hx)

theorem colIdx_insertCol0_self (df : DataFrame) (name : String)
    (vals : List Cell) :
    (df.insertCol0 name vals).colIdx name = some 0 := by
  unfold DataFrame.insertCol0 DataFrame.colIdx
  simp

theorem colIdx_insertCol0_of_ne (df : DataFrame) {name n : String}
    (h : n ≠ name) (vals : List Cell) :
    (df.insertCol0 name vals).colIdx n = (df.colIdx n).map (· + 1) := by
  unfold DataFrame.insertCol0 DataFrame.colIdx
  simp [List.findIdx?_cons, Ne.symm h]

theorem hasCol_insertCol0_false {df : DataFrame} {name n : String}
    (h : df.hasCol n = false) (hn : n ≠ name) (vals : List Cell) :
    (df.insertCol0 name vals).hasCol n = false := by
  rw [hasCol_false_iff] at h ⊢
  intro hmem
  rcases List.mem_cons.mp hmem with he | hmem2
  · exact hn he
  · exact h hmem2

theorem map_head_zipWith_cons : ∀ (vs : List Cell) (rs : List (List Cell)),
    vs.length = rs.length →
    (List.zipWith (fun v r => v :: r) vs rs).map (fun r => getCell r 0) = vs
  | [], _, _ => rfl
  | _ :: _, [], h => by simp at h
  | v :: vs, r :: rs, h => by
      simp only [List.zipWith_cons_cons, List.map_cons]
      rw [map_head_zipWith_cons vs rs (by simpa using h)]
      rfl

theorem map_succ_zipWith_cons (j : Nat) : ∀ (vs : List Cell) (rs : List (List Cell)),
    vs.length = rs.length →
    (List.zipWith (fun v r => v :: r) vs rs).map (fun r => getCell r (j + 1)) =
      rs.map (fun r => getCell r j)
  | [], [], _ => rfl
  | [], _ :: _, h => by simp at h
  | _ :: _, [], h => by simp at h
  | v :: vs, r :: rs, h => by
      simp only [List.zipWith_cons_cons, List.map_cons]
      rw [map_succ_zipWith_cons j vs rs (by simpa using h)]
      rfl

theorem colAt_insertCol0_zero (df : DataFrame) (name : String) {vals : List Cell}
    (h : vals.length = df.rows.length) :
    colAt (df.insertCol0 name vals) 0 = vals :=
  map_head_zipWith_cons vals df.rows h

theorem colAt_insertCol0_succ (df : DataFrame) (name : String) {vals : List Cell}
    (h : vals.length = df.rows.length) (j : Nat) :
    colAt (df.insertCol0 name vals) (j + 1) = colAt df j :=
  map_succ_zipWith_cons j vals df.rows h

theorem mem_zipWith_cons {x : List Cell} : ∀ {vs : List Cell} {rs : List (List Cell)},
    x ∈ List.zipWith (fun v r => v :: r) vs rs → ∃ v r, r ∈ rs ∧ x = v :: r := by
  intro vs
  induction vs with
  | nil => intro rs hx; simp at hx
  | cons v vs ih =>
      intro rs hx
      cases rs with
      | nil => simp at hx
      | cons r rs =>
          simp only [List.zipWith_cons_cons, List.mem_cons] at hx
          rcases hx with rfl | hx
          · exact ⟨v, r, List.mem_cons_self r rs, rfl⟩
          · rcases ih hx with ⟨v2, r2, hr, he⟩
            exact ⟨v2, r2, List.mem_cons_of_mem r hr, he⟩

theorem header_mapCol (df : DataFrame) (m : String) (f : Cell → Cell) :
    (df.mapCol m f).header = df.header := by
  unfold DataFrame.mapCol
  split <;> rfl

theorem colIdx_mapCol (df : DataFrame) (m n : String) (f : Cell → Cell) :
    (df.mapCol m f).colIdx n = df.colIdx n := by
  unfold DataFrame.colIdx
  rw [header_mapCol]

theorem rows_length_mapCol (df : DataFrame) (m : String) (f : Cell → Cell) :
    (df.mapCol m f).rows.length = df.rows.length := by
  unfold DataFrame.mapCol
  split
  · rfl
  · simp

theorem colAt_mapCol_ne (df : DataFrame) {m : String} {jm j : Nat}
    (f : Cell → Cell) (hm : df.colIdx m = some jm) (hne : jm ≠ j) :
    colAt (df.mapCol m f) j = colAt df j := by
  unfold DataFrame.mapCol
  rw [hm]
  unfold colAt
  simp only [List.map_map]
  apply List.map_congr_left
  intro r hr
  simp [Function.comp, getCell, List.getElem?_set_ne hne]

theorem colAt_mapCol_self (df : DataFrame) {m : String} {jm : Nat}
    (f : Cell → Cell) (hwf : df.WF) (hm : df.colIdx m = some jm) :
    colAt (df.mapCol m f) jm = (colAt df jm).map f := by
  unfold DataFrame.mapCol
  rw [hm]
  unfold colAt
  simp only [List.map_map]
  apply List.map_congr_left
  intro r hr
  have hlt : jm < r.length := by rw [hwf r hr]; exact colIdx_lt_length hm
  simp [Function.comp, getCell, List.getElem?_set_self hlt]

theorem colIdx_appendColConst (df : DataFrame) {n : String} {j : Nat}
    (name : String) (v : Cell) (h : df.colIdx n = some j) :
    (df.appendColConst name v).colIdx n = some j := by
  unfold DataFrame.appendColConst DataFrame.colIdx
  rw [List.findIdx?_append]
  unfold DataFrame.colIdx at h
  rw [h]
  rfl

theorem colAt_appendColConst (df : DataFrame) {j : Nat} (name : String)
    (v : Cell) (hwf : df.WF) (hj : j < df.header.length) :
    colAt (df.appendColConst name v) j = colAt df j := by
  unfold DataFrame.appendColConst colAt
  simp only [List.map_map]
  apply List.map_congr_left
  intro r hr
  have hlt : j < r.length := by rw [hwf r hr]; exact hj
  simp [Function.comp, getCell, List.getElem?_append_left hlt]

theorem WF_renameCol {df : DataFrame} (old nw : String) (h : df.WF) :
    (df.renameCol old nw).WF := by
  intro r hr
  simp only [DataFrame.renameCol, List.length_map]
  exact h r hr

theorem WF_insertCol0 {df : DataFrame} (name : String) {vals : List Cell}
    (hv : vals.length = df.rows.length) (h : df.WF) :
    (df.insertCol0 name vals).WF := by
  intro r hr
  rcases mem_zipWith_cons hr with ⟨v, r0, hr0, rfl⟩
  simp only [DataFrame.insertCol0, List.length_cons]
  rw [h r0 hr0]

theorem WF_mapCol {df : DataFrame} (m : String) (f : Cell → Cell) (h : df.WF) :
    (df.mapCol m f).WF := by
  intro r hr
  rw [header_mapCol]
  unfold DataFrame.mapCol at hr
  cases hm : df.colIdx m with
  | none => rw [hm] at hr; exact h r hr
  | some jm =>
      rw [hm] at hr
      simp only [List.mem_map] at hr
      rcases hr with ⟨r0, hr0, rfl⟩
      simp [h r0 hr0]

theorem WF_appendColConst {df : DataFrame} (name : String) (v : Cell)
    (h : df.WF) : (df.appendColConst name v).WF := by
  intro r hr
  simp only [DataFrame.appendColConst, List.mem_map] at hr
  rcases hr with ⟨r0, hr0, rfl⟩
  simp [DataFrame.appendColConst, h r0 hr0]

theorem pick_col_none_iff {df : DataFrame} {cands : List String} :
    pick_col df cands = none ↔ ∀ c ∈ cands, df.hasCol c = false := by
  unfold pick_col
  rw [List.find?_eq_none]
  constructor
  · intro h c hc
    have := h c hc
    simpa using this
  · intro h c hc
    simp [h c hc]

theorem pick_col_found {df : DataFrame} {cands : List String} {c : String}
    (h : pick_col df cands = some c) : c ∈ cands ∧ df.hasCol c = true :=
  ⟨List.mem_of_find?_eq_some h, List.find?_some h⟩

theorem pick_col_head_false {df : DataFrame} {c0 : String} {rest : List String}
    {c : String} (h : pick_col df (c0 :: rest) = some c) (hne : c ≠ c0) :
    df.hasCol c0 = false := by
  cases hc : df.hasCol c0 with
  | false => rfl
  | true =>
      unfold pick_col at h
      rw [List.find?_cons_of_pos _ hc] at h
      exact absurd (Option.some.inj h).symm hne

/-! ## Step-level preservation lemmas -/

theorem keep_companyStep {df : DataFrame} {n : String} {j : Nat}
    (p : Option String)
    (hcands : ∀ cc, p = some cc →
      cc ∈ ["Company", "Company Name", "Stock", "Ticker", "Symbol", "Name"])
    (hn1 : n ∉ ["Company", "Company Name", "Stock", "Ticker", "Symbol", "Name"])
    (hn2 : n ≠ "Company") (hj : df.colIdx n = some j) (hwf : df.WF) :
    ∃ j2, (companyStep p df).colIdx n = some j2 ∧
      colAt (companyStep p df) j2 = colAt df j ∧
      (companyStep p df).rows.length = df.rows.length ∧
      (companyStep p df).WF := by
  cases p with
  | some cc =>
      simp only [companyStep]
      by_cases hcc : cc = "Company"
      · rw [if_pos hcc]
        exact ⟨j, hj, rfl, rfl, hwf⟩
      · rw [if_neg hcc]
        have hncc : n ≠ cc := fun he => hn1 (he ▸ hcands cc rfl)
        refine ⟨j, ?_, rfl, rfl, WF_renameCol _ _ hwf⟩
        rw [colIdx_renameCol_of_ne df hncc hn2]
        exact hj
  | none =>
      simp only [companyStep]
      by_cases hc : df.hasCol "Company" = true
      · rw [if_pos hc]
        exact ⟨j, hj, rfl, rfl, hwf⟩
      · rw [if_neg hc]
        have hvlen : (indexStr df.rows.length).length = df.rows.length := by
          simp [indexStr]
        refine ⟨j + 1, ?_, colAt_insertCol0_succ df _ hvlen j, ?_,
          WF_insertCol0 _ hvlen hwf⟩
        · rw [colIdx_insertCol0_of_ne df hn2, hj]
          rfl
        · simp [DataFrame.insertCol0, hvlen]

theorem companyStep_hasCol_false {df : DataFrame} {n : String} (p : Option String)
    (hn2 : n ≠ "Company") (h : df.hasCol n = false) :
    (companyStep p df).hasCol n = false := by
  cases p with
  | some cc =>
      simp only [companyStep]
      by_cases hcc : cc = "Company"
      · rw [if_pos hcc]; exact h
      · rw [if_neg hcc]; exact hasCol_renameCol_false h hn2
  | none =>
      simp only [companyStep]
      by_cases hc : df.hasCol "Company" = true
      · rw [if_pos hc]; exact h
      · rw [if_neg hc]; exact hasCol_insertCol0_false h hn2 _

theorem keep_esgRenameStep {df : DataFrame} {n : String} {j : Nat}
    (p : Option String)
    (hcands : ∀ c, p = some c → c ∈ ["ESG Score", "esg_score", "esg", "score"])
    (hn1 : n ∉ ["ESG Score", "esg_score", "esg", "score"]) (hn2 : n ≠ "ESG Score")
    (hj : df.colIdx n = some j) :
    (esgRenameStep p df).colIdx n = some j ∧
    (esgRenameStep p df).rows = df.rows ∧
    (esgRenameStep p df).header.length = df.header.length := by
  cases p with
  | none => exact ⟨hj, rfl, rfl⟩
  | some c =>
      simp only [esgRenameStep]
      by_cases hce : c = "ESG Score"
      · rw [if_pos hce]; exact ⟨hj, rfl, rfl⟩
      · rw [if_neg hce]
        have hnc : n ≠ c := fun he => hn1 (he ▸ hcands c rfl)
        exact ⟨by rw [colIdx_renameCol_of_ne df hnc hn2]; exact hj, rfl,
          by simp [DataFrame.renameCol]⟩

theorem esgRenameStep_canonical {df : DataFrame} {c : String} {j : Nat}
    (hj : df.colIdx c = some j)
    (hcase : c = "ESG Score" ∨ df.hasCol "ESG Score" = false) :
    (esgRenameStep (some c) df).colIdx "ESG Score" = some j ∧
    (esgRenameStep (some c) df).rows = df.rows ∧
    (esgRenameStep (some c) df).header.length = df.header.length := by
  simp only [esgRenameStep]
  by_cases hce : c = "ESG Score"
  · rw [if_pos hce]
    exact ⟨hce ▸ hj, rfl, rfl⟩
  · rcases hcase with hc | hc
    · exact absurd hc hce
    · rw [if_neg hce]
      exact ⟨by rw [colIdx_renameCol_self df hc]; exact hj, rfl,
        by simp [DataFrame.renameCol]⟩

theorem keep_esgCoerceStep {df : DataFrame} {n : String} {j : Nat}
    (hn : n ≠ "ESG Score") (hj : df.colIdx n = some j) (hwf : df.WF) :
    (esgCoerceStep df).colIdx n = some j ∧
    colAt (esgCoerceStep df) j = colAt df j ∧
    (esgCoerceStep df).rows.length = df.rows.length ∧
    (esgCoerceStep df).WF := by
  unfold esgCoerceStep
  by_cases hcol : df.hasCol "ESG Score" = true
  · rw [if_pos hcol]
    rcases colIdx_isSome_of_hasCol hcol with ⟨jm, hjm⟩
    have hne : jm ≠ j := colIdx_ne_of_distinct hjm hj (Ne.symm hn)
    exact ⟨by rw [colIdx_mapCol]; exact hj, colAt_mapCol_ne df _ hjm hne,
      rows_length_mapCol df _ _, WF_mapCol _ _ hwf⟩
  · rw [if_neg hcol]
    exact ⟨hj, rfl, rfl, hwf⟩

theorem esgCoerceStep_self {df : DataFrame} {j : Nat} (hwf : df.WF)
    (hj : df.colIdx "ESG Score" = some j) :
    (esgCoerceStep df).colIdx "ESG Score" = some j ∧
    colAt (esgCoerceStep df) j = (colAt df j).map toNumericCell ∧
    (esgCoerceStep df).rows.length = df.rows.length ∧
    (esgCoerceStep df).WF := by
  have hcol := hasCol_of_colIdx_some hj
  unfold esgCoerceStep
  rw [if_pos hcol]
  exact ⟨by rw [colIdx_mapCol]; exact hj, colAt_mapCol_self df _ hwf hj,
    rows_length_mapCol df _ _, WF_mapCol _ _ hwf⟩

theorem keep_sectorRenameStep {df : DataFrame} {n : String} {j : Nat}
    (p : Option String)
    (hcands : ∀ c, p = some c → c ∈ ["Sector", "sector", "Industry", "industry"])
    (hn1 : n ∉ ["Sector", "sector", "Industry", "industry"]) (hn2 : n ≠ "Sector")
    (hj : df.colIdx n = some j) :
    (sectorRenameStep p df).colIdx n = some j ∧
    (sectorRenameStep p df).rows = df.rows ∧
    (sectorRenameStep p df).header.length = df.header.length := by
  cases p with
  | none => exact ⟨hj, rfl, rfl⟩
  | some c =>
      simp only [sectorRenameStep]
      by_cases hce : c = "Sector"
      · rw [if_pos hce]; exact ⟨hj, rfl, rfl⟩
      · rw [if_neg hce]
        have hnc : n ≠ c := fun he => hn1 (he ▸ hcands c rfl)
        exact ⟨by rw [colIdx_renameCol_of_ne df hnc hn2]; exact hj, rfl,
          by simp [DataFrame.renameCol]⟩

theorem keep_sectorDefaultStep {df : DataFrame} {n : String} {j : Nat}
    (hj : df.colIdx n = some j) (hwf : df.WF) :
    (sectorDefaultStep df).colIdx n = some j ∧
    colAt (sectorDefaultStep df) j = colAt df j ∧
    (sectorDefaultStep df).rows.length = df.rows.length ∧
    (sectorDefaultStep df).WF := by
  unfold sectorDefaultStep
  by_cases hcol : df.hasCol "Sector" = true
  · rw [if_pos hcol]
    exact ⟨hj, rfl, rfl, hwf⟩
  · rw [if_neg hcol]
    exact ⟨colIdx_appendColConst df _ _ hj,
      colAt_appendColConst df _ _ hwf (colIdx_lt_length hj),
      by simp [DataFrame.appendColConst], WF_appendColConst _ _ hwf⟩

/-! ## C4 — synthesized company column -/

/-- C4: for a well-formed raw table with no column named in the company
candidate list, normalization synthesizes a `Company` column as the *first*
column (position 0) whose value in each row is that row's zero-based ordinal
position rendered as a string, in original row order; no row is added or
dropped. -/
theorem C4_company_synthesized (T : DataFrame) (hwf : T.WF)
    (h : ∀ c ∈ ["Company", "Company Name", "Stock", "Ticker", "Symbol", "Name"],
      T.hasCol c = false) :
    (normalizeDF T).colIdx "Company" = some 0 ∧
    colAt (normalizeDF T) 0 = indexStr T.rows.length ∧
    (normalizeDF T).rows.length = T.rows.length := by
  have hvlen : (indexStr T.rows.length).length = T.rows.length := by
    simp [indexStr]
  have hpick :
      pick_col T ["Company", "Company Name", "Stock", "Ticker", "Symbol", "Name"] = none :=
    pick_col_none_iff.mpr h
  have hcomp : T.hasCol "Company" = false := h "Company" (by simp)
  have e1 : companyStep
      (pick_col T ["Company", "Company Name", "Stock", "Ticker", "Symbol", "Name"]) T =
      T.insertCol0 "Company" (indexStr T.rows.length) := by
    rw [hpick]
    simp only [companyStep]
    rw [if_neg (by simp [hcomp])]
  have hnorm : normalizeDF T =
      sectorDefaultStep
        (sectorRenameStep (pick_col T ["Sector", "sector", "Industry", "industry"])
          (esgCoerceStep
            (esgRenameStep (pick_col T ["ESG Score", "esg_score", "esg", "score"])
              (T.insertCol0 "Company" (indexStr T.rows.length))))) := by
    unfold normalizeDF
    rw [copy_eq, e1]
  have i1 : (T.insertCol0 "Company" (indexStr T.rows.length)).colIdx "Company" = some 0 :=
    colIdx_insertCol0_self T _ _
  have a1 : colAt (T.insertCol0 "Company" (indexStr T.rows.length)) 0 =
      indexStr T.rows.length := colAt_insertCol0_zero T _ hvlen
  have l1 : (T.insertCol0 "Company" (indexStr T.rows.length)).rows.length =
      T.rows.length := by
    simp [DataFrame.insertCol0, hvlen]
  have w1 : (T.insertCol0 "Company" (indexStr T.rows.length)).WF :=
    WF_insertCol0 _ hvlen hwf
  obtain ⟨i2, r2, hh2⟩ := keep_esgRenameStep
    (pick_col T ["ESG Score", "esg_score", "esg", "score"])
    (fun c hc => (pick_col_found hc).1) (by decide) (by decide) i1
  have a2 := (colAt_congr_rows r2 0).trans a1
  have l2 := (congrArg List.length r2).trans l1
  have w2 := WF_transport r2 hh2 w1
  obtain ⟨i3, a3q, l3q, w3⟩ := keep_esgCoerceStep (by decide) i2 w2
  have a3 := a3q.trans a2
  have l3 := l3q.trans l2
  obtain ⟨i4, r4, hh4⟩ := keep_sectorRenameStep
    (pick_col T ["Sector", "sector", "Industry", "industry"])
    (fun c hc => (pick_col_found hc).1) (by decide) (by decide) i3
  have a4 := (colAt_congr_rows r4 0).trans a3
  have l4 := (congrArg List.length r4).trans l3
  have w4 := WF_transport r4 hh4 w3
  obtain ⟨i5, a5q, l5q, _⟩ := keep_sectorDefaultStep i4 w4
  rw [hnorm]
  exact ⟨i5, a5q.trans a4, l5q.trans l4⟩

/-- Witness for `C4_company_synthesized` on a concrete 3-row table whose
only column is `"score"`. -/
theorem C4_company_synthesized_witness :
    tableNoCompany.WF ∧
    (∀ c ∈ ["Company", "Company Name", "Stock", "Ticker", "Symbol", "Name"],
      tableNoCompany.hasCol c = false) ∧
    ((normalizeDF tableNoCompany).colIdx "Company" = some 0 ∧
      colAt (normalizeDF tableNoCompany) 0 = indexStr tableNoCompany.rows.length ∧
      (normalizeDF tableNoCompany).rows.length = tableNoCompany.rows.length) := by
  exact ⟨by unfold DataFrame.WF; decide, by decide,
    C4_company_synthesized tableNoCompany (by unfold DataFrame.WF; decide) (by decide)⟩

/-! ## C9 — numeric coercion of the score column -/

/-- C9: for a well-formed raw table with a recognizable ESG-score column
(found by `pick_col` at position `j`), the normalized table's `"ESG Score"`
column is that column with every value passed through the numeric coercion:
numbers stay, parseable strings such as `"72.5"` become their numeric value,
and values that cannot be parsed become the missing marker — not zero — and
no row is dropped. -/
theorem C9_score_coercion (T : DataFrame) (c : String) (j : Nat) (hwf : T.WF)
    (hfind : pick_col T ["ESG Score", "esg_score", "esg", "score"] = some c)
    (hj : T.colIdx c = some j) :
    (∃ i, (normalizeDF T).colIdx "ESG Score" = some i ∧
      colAt (normalizeDF T) i = (colAt T j).map toNumericCell) ∧
    (normalizeDF T).rows.length = T.rows.length ∧
    toNumericCell (Cell.str "72.5") = Cell.num (145 / 2) ∧
    (∀ s0 : String, parseDecimal s0 = none →
      toNumericCell (Cell.str s0) = Cell.null) ∧
    Cell.null ≠ Cell.num 0 := by
  obtain ⟨hc_mem, hc_has⟩ := pick_col_found hfind
  have hc_notco : c ∉ ["Company", "Company Name", "Stock", "Ticker", "Symbol", "Name"] := by
    have hdis : ∀ x ∈ ["ESG Score", "esg_score", "esg", "score"],
        x ∉ ["Company", "Company Name", "Stock", "Ticker", "Symbol", "Name"] := by
      decide
    exact hdis c hc_mem
  have hc_nc : c ≠ "Company" := by
    have hx : ∀ x ∈ ["ESG Score", "esg_score", "esg", "score"], x ≠ "Company" := by
      decide
    exact hx c hc_mem
  have hnorm : normalizeDF T =
      sectorDefaultStep
        (sectorRenameStep (pick_col T ["Sector", "sector", "Industry", "industry"])
          (esgCoerceStep
            (esgRenameStep (some c)
              (companyStep
                (pick_col T ["Company", "Company Name", "Stock", "Ticker", "Symbol", "Name"])
                T)))) := by
    unfold normalizeDF
    rw [copy_eq, hfind]
  obtain ⟨j1, hj1, ha1, hl1, hw1⟩ := keep_companyStep
    (pick_col T ["Company", "Company Name", "Stock", "Ticker", "Symbol", "Name"])
    (fun cc hcc => (pick_col_found hcc).1) hc_notco hc_nc hj hwf
  have hcase : c = "ESG Score" ∨
      (companyStep
        (pick_col T ["Company", "Company Name", "Stock", "Ticker", "Symbol", "Name"])
        T).hasCol "ESG Score" = false := by
    by_cases hcE : c = "ESG Score"
    · exact Or.inl hcE
    · exact Or.inr (companyStep_hasCol_false _ (by decide)
        (pick_col_head_false hfind hcE))
  obtain ⟨hj2, hr2, hh2⟩ := esgRenameStep_canonical hj1 hcase
  have ha2 := (colAt_congr_rows hr2 j1).trans ha1
  have hl2 := (congrArg List.length hr2).trans hl1
  have hw2 := WF_transport hr2 hh2 hw1
  obtain ⟨hj3, ha3q, hl3q, hw3⟩ := esgCoerceStep_self hw2 hj2
  have ha3 : colAt (esgCoerceStep (esgRenameStep (some c)
      (companyStep
        (pick_col T ["Company", "Company Name", "Stock", "Ticker", "Symbol", "Name"])
        T))) j1 = (colAt T j).map toNumericCell := by
    rw [ha3q, ha2]
  have hl3 := hl3q.trans hl2
  obtain ⟨hj4, hr4, hh4⟩ := keep_sectorRenameStep
    (pick_col T ["Sector", "sector", "Industry", "industry"])
    (fun cc hcc => (pick_col_found hcc).1) (by decide) (by decide) hj3
  have ha4 := (colAt_congr_rows hr4 j1).trans ha3
  have hl4 := (congrArg List.length hr4).trans hl3
  have hw4 := WF_transport hr4 hh4 hw3
  obtain ⟨hj5, ha5q, hl5q, _⟩ := keep_sectorDefaultStep hj4 hw4
  refine ⟨⟨j1, by rw [hnorm]; exact hj5, by rw [hnorm]; exact ha5q.trans ha4⟩,
    by rw [hnorm]; exact hl5q.trans hl4, by decide, ?_, by decide⟩
  intro s0 h0
  simp only [toNumericCell]
  rw [h0]

/-- Witness for `C9_score_coercion` on a concrete table mixing `"72.5"`, an
unparseable string and a plain number in a column named `"score"`. -/
theorem C9_score_coercion_witness :
    tableMixedScores.WF ∧
    pick_col tableMixedScores ["ESG Score", "esg_score", "esg", "score"] = some "score" ∧
    tableMixedScores.colIdx "score" = some 1 ∧
    ((∃ i, (normalizeDF tableMixedScores).colIdx "ESG Score" = some i ∧
        colAt (normalizeDF tableMixedScores) i =
          (colAt tableMixedScores 1).map toNumericCell) ∧
      (normalizeDF tableMixedScores).rows.length = tableMixedScores.rows.length ∧
      toNumericCell (Cell.str "72.5") = Cell.num (145 / 2) ∧
      (∀ s0 : String, parseDecimal s0 = none →
        toNumericCell (Cell.str s0) = Cell.null) ∧
      Cell.null ≠ Cell.num 0) := by
  exact ⟨by unfold DataFrame.WF; decide, by decide, by decide,
    C9_score_coercion tableMixedScores "score" 1 (by unfold DataFrame.WF; decide)
      (by decide) (by decide)⟩

end GreenGenie
